import Mathlib

/-!
# Verification of the enviro-station backend core

Shallow embedding of the Go backend of the enviro-station air-quality
telemetry platform, together with proofs about the embedded operations.

Modelling conventions:
* Go `float64` values are modelled as exact rationals (`ℚ`).  Every decimal
  literal that the code parses is represented by the rational it denotes;
  both the string path and the number path of the lenient codec run through
  the same parse, so equalities proved here transfer to the float semantics.
* Go `int64` / `int` are modelled as `Int`, with the `int64` range checks of
  `strconv.ParseInt` made explicit where the code performs them.
* `time.Time` values are modelled as `Int` instants (milliseconds), with the
  Go zero value of `time.Time` modelled as `Option.none` where the code
  tests `IsZero`.  `time.Duration` is modelled as `Int` nanoseconds.
* Mutex-protected critical sections of the Go code execute atomically, so
  each one is embedded as a single transition of a state machine and
  concurrent histories are modelled as sequences of those transitions.
-/

namespace EnviroStation

/-- `SensorReading` from the backend `server` package: an integer timestamp
plus nine double-precision metric fields (floats modelled as `ℚ`). -/
structure SensorReading where
  timestamp : Int
  temperature : ℚ
  pressure : ℚ
  humidity : ℚ
  oxidised : ℚ
  reduced : ℚ
  nh3 : ℚ
  pm1 : ℚ
  pm2 : ℚ
  pm10 : ℚ
  deriving Repr, DecidableEq

/-- A throwaway reading used to build concrete store states in witnesses. -/
def dummyReading : SensorReading :=
  { timestamp := 1, temperature := 0, pressure := 0, humidity := 0,
    oxidised := 0, reduced := 0, nh3 := 0, pm1 := 0, pm2 := 0, pm10 := 0 }

/-! ## Store.Latest

`PostgresStore.Latest` runs `SELECT ... ORDER BY id DESC LIMIT $1` and then
reverses the scanned rows in place.  `MemoryStore.Latest` copies the suffix
of its in-memory slice.  Both are embedded as functions of the list of
stored readings in insertion (id-ascending) order. -/

/-- `PostgresStore.Latest`: a `limit ≤ 0` defaults to 100; rows are selected
newest-first (`ORDER BY id DESC LIMIT lim`, i.e. the first `lim` elements of
the reversed insertion order) and then reversed before return. -/
def postgresLatest (rows : List SensorReading) (limit : Int) : List SensorReading :=
  let lim : Int := if limit ≤ 0 then 100 else limit
  ((rows.reverse).take lim.toNat).reverse

/-- `MemoryStore.Latest`: a `limit ≤ 0` or a limit beyond the stored count is
replaced by the stored count, and the last `lim` readings are copied out. -/
def memoryLatest (rows : List SensorReading) (limit : Int) : List SensorReading :=
  let lim : Nat := if limit ≤ 0 ∨ (rows.length : Int) < limit then rows.length else limit.toNat
  rows.drop (rows.length - lim)

theorem reverse_take_reverse (l : List SensorReading) (n : Nat) :
    (l.reverse.take n).reverse = l.drop (l.length - n) := by
  rw [List.take_reverse, List.reverse_reverse]

theorem postgresLatest_pos (rows : List SensorReading) (limit : Int) (h : 0 < limit) :
    postgresLatest rows limit = rows.drop (rows.length - limit.toNat) := by
  unfold postgresLatest
  rw [if_neg (by omega)]
  exact reverse_take_reverse rows limit.toNat

theorem memoryLatest_pos (rows : List SensorReading) (limit : Int) (h : 0 < limit) :
    memoryLatest rows limit = rows.drop (rows.length - limit.toNat) := by
  unfold memoryLatest
  by_cases hgt : (rows.length : Int) < limit
  · rw [if_pos (Or.inr hgt)]
    have : rows.length - limit.toNat = 0 := by omega
    simp [this]
  · rw [if_neg (by omega)]

/-- C2, counterexample: with 101 stored readings and `limit = 0`,
`MemoryStore.Latest` returns all 101 readings — it does not default the
limit to 100 (unlike `PostgresStore.Latest`, which returns 100). -/
theorem c2_latest_counterexample :
    (memoryLatest (List.replicate 101 dummyReading) 0).length = 101 ∧
    (postgresLatest (List.replicate 101 dummyReading) 0).length = 100 := by
  constructor
  · simp [memoryLatest]
  · simp [postgresLatest, reverse_take_reverse]

/-- C2 (amended): for every store state and every positive limit, both
`PostgresStore.Latest` and `MemoryStore.Latest` return the at most `limit`
most recently inserted readings, oldest-first (the suffix of the insertion
order); when `limit ≤ 0`, `PostgresStore.Latest` defaults the limit to 100
while `MemoryStore.Latest` returns the full stored contents. -/
theorem c2_latest_amended (rows : List SensorReading) (limit : Int) :
    (0 < limit →
      postgresLatest rows limit = rows.drop (rows.length - limit.toNat) ∧
      memoryLatest rows limit = rows.drop (rows.length - limit.toNat) ∧
      (postgresLatest rows limit).length ≤ limit.toNat) ∧
    (limit ≤ 0 →
      postgresLatest rows limit = rows.drop (rows.length - 100) ∧
      memoryLatest rows limit = rows) := by
  refine ⟨fun h => ⟨postgresLatest_pos rows limit h, memoryLatest_pos rows limit h, ?_⟩,
    fun h => ⟨?_, ?_⟩⟩
  · rw [postgresLatest_pos rows limit h, List.length_drop]
    omega
  · unfold postgresLatest
    rw [if_pos h]
    exact reverse_take_reverse rows 100
  · unfold memoryLatest
    rw [if_pos (Or.inl h)]
    simp

/-- C2 witness: the amended theorem applied to a concrete store of three
readings with `limit = 2`. -/
theorem c2_latest_amended_witness :
    postgresLatest (List.replicate 3 dummyReading) 2 =
      (List.replicate 3 dummyReading).drop 1 ∧
    memoryLatest (List.replicate 3 dummyReading) 2 =
      (List.replicate 3 dummyReading).drop 1 := by
  have h := (c2_latest_amended (List.replicate 3 dummyReading) 2).1 (by norm_num)
  exact ⟨by simpa using h.1, by simpa using h.2.1⟩

/-! ## Reading codec

The ingest codec decodes with `json.Decoder.UseNumber()`, so numeric JSON
tokens reach `parseFloat` / `parseInt64` as `json.Number` literal text and
JSON strings as Go strings.  `strconv.ParseFloat` / `strconv.ParseInt` are
modelled on decimal literals, each literal denoting an exact rational. -/

/-- Value of a list of decimal digit characters. -/
def natOfDigits (ds : List Char) : Nat :=
  ds.foldl (fun acc c => acc * 10 + (c.toNat - 48)) 0

def int64Min : Int := -(2 ^ 63)

def int64Max : Int := 2 ^ 63 - 1

/-- Consume an optional leading sign, returning whether it was `-`. -/
def consumeSign : List Char → Bool × List Char
  | '-' :: rest => (true, rest)
  | '+' :: rest => (false, rest)
  | cs => (false, cs)

/-- Model of `strconv.ParseFloat(s, 64)` on decimal literals: optional sign,
digits with an optional fractional part (digits required on at least one
side of the dot), optional `e`/`E` exponent.  The literal's exact rational
value is returned; hex floats, digit underscores, infinities and NaN are
outside the model (none of the embedded call sites relies on them). -/
def parseGoFloat (s : String) : Option ℚ :=
  let (neg, cs) := consumeSign s.toList
  let (intDs, cs) := cs.span Char.isDigit
  let (fracDs, cs) :=
    match cs with
    | '.' :: rest => rest.span Char.isDigit
    | _ => (([] : List Char), cs)
  if intDs.isEmpty ∧ fracDs.isEmpty then none
  else
    let mant : ℚ := (natOfDigits (intDs ++ fracDs) : ℚ) / (10 : ℚ) ^ fracDs.length
    let signed : ℚ := if neg then -mant else mant
    match cs with
    | [] => some signed
    | e :: rest =>
      if e = 'e' ∨ e = 'E' then
        let (eneg, rest) := consumeSign rest
        let (expDs, rest) := rest.span Char.isDigit
        if expDs.isEmpty ∨ ¬rest.isEmpty then none
        else
          let ev : Int := if eneg then -(natOfDigits expDs : Int) else (natOfDigits expDs : Int)
          some (signed * (10 : ℚ) ^ ev)
      else none

/-- Model of `strconv.ParseInt(s, 10, 64)`: optional sign, decimal digits,
failing outside the `int64` range. -/
def parseGoInt (s : String) : Option Int :=
  let (neg, ds) := consumeSign s.toList
  if ds.isEmpty ∨ ¬ds.all Char.isDigit then none
  else
    let v : Int := if neg then -(natOfDigits ds : Int) else (natOfDigits ds : Int)
    if v < int64Min ∨ int64Max < v then none else some v

/-- Go `int64(f)` conversion of a parsed float: truncation toward zero.
Out-of-range conversion follows the amd64 behaviour (minimum `int64`);
no embedded call site reaches that case. -/
def truncToInt64 (q : ℚ) : Int :=
  let t : Int := if 0 ≤ q then ⌊q⌋ else ⌈q⌉
  if t < int64Min ∨ int64Max < t then int64Min else t

/-- A decoded JSON value as the codec sees it: a `json.Number` (its literal
text), a string, or any other JSON value. -/
inductive JsonValue where
  | num (lit : String)
  | str (s : String)
  | other
  deriving Repr, DecidableEq

/-- `parseFloat` from the reading codec: `json.Number` and string values are
both parsed with `strconv.ParseFloat`; other values are rejected.  (The Go
`float64`/`float32`/`int`/`int64` cases are unreachable under `UseNumber`
decoding.) -/
def parseFloat : JsonValue → Option ℚ
  | .num lit => parseGoFloat lit
  | .str s => parseGoFloat s
  | .other => none

/-- `parseInt64` from the reading codec: a `json.Number` must be an integer
literal (`json.Number.Int64`); a string first tries `strconv.ParseInt` and
falls back to `strconv.ParseFloat` followed by `int64` truncation. -/
def parseInt64 : JsonValue → Option Int
  | .num lit => parseGoInt lit
  | .str s =>
    match parseGoInt s with
    | some v => some v
    | none => (parseGoFloat s).map truncToInt64
  | .other => none

/-- Decode errors of the reading codec.  The `invalidField` cause chain of
the Go `%w` wrapping is elided; batch errors carry the element index. -/
inductive DecodeError where
  | unknownField (key : String)
  | missingField (key : String)
  | invalidField (key : String)
  | missingTimestamp
  | batchEmpty
  | batchTooLarge (maxSize : Nat)
  | atIndex (idx : Nat) (err : DecodeError)
  deriving Repr, DecidableEq

/-- The Go error strings produced by the codec (`fmt.Errorf` formats). -/
def decodeErrorMessage : DecodeError → String
  | .unknownField key => "unknown field: " ++ key
  | .missingField key => "missing field: " ++ key
  | .invalidField key => "invalid field " ++ key
  | .missingTimestamp => "timestamp is required"
  | .batchEmpty => "batch must include at least one reading"
  | .batchTooLarge maxSize => "batch exceeds max size of " ++ toString maxSize
  | .atIndex idx err => "invalid reading at index " ++ toString idx ++ ": " ++ decodeErrorMessage err

/-- A decoded JSON object (`map[string]any`): key/value association list.
JSON object keys are unique, so first-match lookup is faithful. -/
abbrev Payload := List (String × JsonValue)

def allowedReadingKeys : List String :=
  ["timestamp", "temperature", "pressure", "humidity", "oxidised", "reduced",
   "nh3", "pm1", "pm2", "pm10"]

def lookupField (payload : Payload) (key : String) : Option JsonValue :=
  (payload.find? (fun kv => kv.1 = key)).map (·.2)

/-- The unknown-key scan at the top of `decodeReadingPayload`. -/
def firstUnknownKey (payload : Payload) : Option String :=
  (payload.find? (fun kv => ¬ allowedReadingKeys.contains kv.1)).map (·.1)

def parseFloatField (payload : Payload) (key : String) : Except DecodeError ℚ :=
  match lookupField payload key with
  | none => .error (.missingField key)
  | some v =>
    match parseFloat v with
    | none => .error (.invalidField key)
    | some q => .ok q

def parseInt64Field (payload : Payload) (key : String) : Except DecodeError Int :=
  match lookupField payload key with
  | none => .error (.missingField key)
  | some v =>
    match parseInt64 v with
    | none => .error (.invalidField key)
    | some n => .ok n

/-- `decodeReadingPayload`: reject unknown keys, then parse the ten fields
in source order, rejecting a timestamp that resolves to 0. -/
def decodeReadingPayload (payload : Payload) : Except DecodeError SensorReading :=
  match firstUnknownKey payload with
  | some key => .error (.unknownField key)
  | none =>
    match parseInt64Field payload "timestamp" with
    | .error e => .error e
    | .ok timestamp =>
      if timestamp = 0 then .error .missingTimestamp
      else
        match parseFloatField payload "temperature" with
        | .error e => .error e
        | .ok temperature =>
          match parseFloatField payload "pressure" with
          | .error e => .error e
          | .ok pressure =>
            match parseFloatField payload "humidity" with
            | .error e => .error e
            | .ok humidity =>
              match parseFloatField payload "oxidised" with
              | .error e => .error e
              | .ok oxidised =>
                match parseFloatField payload "reduced" with
                | .error e => .error e
                | .ok reduced =>
                  match parseFloatField payload "nh3" with
                  | .error e => .error e
                  | .ok nh3 =>
                    match parseFloatField payload "pm1" with
                    | .error e => .error e
                    | .ok pm1 =>
                      match parseFloatField payload "pm2" with
                      | .error e => .error e
                      | .ok pm2 =>
                        match parseFloatField payload "pm10" with
                        | .error e => .error e
                        | .ok pm10 =>
                          .ok { timestamp := timestamp, temperature := temperature,
                                pressure := pressure, humidity := humidity,
                                oxidised := oxidised, reduced := reduced,
                                nh3 := nh3, pm1 := pm1, pm2 := pm2, pm10 := pm10 }

/-- The element loop of `DecodeReadingsBatch`: first failure wins, wrapped
with its index. -/
def decodeReadingsIndexed : List Payload → Nat → Except DecodeError (List SensorReading)
  | [], _ => .ok []
  | p :: rest, idx =>
    match decodeReadingPayload p with
    | .error e => .error (.atIndex idx e)
    | .ok r =>
      match decodeReadingsIndexed rest (idx + 1) with
      | .error e => .error e
      | .ok rs => .ok (r :: rs)

/-- `DecodeReadingsBatch` after the JSON array is decoded: empty batches and
oversized batches are rejected before any element is examined. -/
def decodeReadingsBatch (payloads : List Payload) (maxBatchSize : Nat) :
    Except DecodeError (List SensorReading) :=
  if payloads.isEmpty then .error .batchEmpty
  else if maxBatchSize < payloads.length then .error (.batchTooLarge maxBatchSize)
  else decodeReadingsIndexed payloads 0

/-- A full ten-field reading object whose field values are all wrapped the
same way (`JsonValue.num` for the all-number JSON, `JsonValue.str` for the
all-string JSON). -/
def readingPayload (wrap : String → JsonValue)
    (ts temp pres hum ox red nh3v pm1v pm2v pm10v : String) : Payload :=
  [("timestamp", wrap ts), ("temperature", wrap temp), ("pressure", wrap pres),
   ("humidity", wrap hum), ("oxidised", wrap ox), ("reduced", wrap red),
   ("nh3", wrap nh3v), ("pm1", wrap pm1v), ("pm2", wrap pm2v), ("pm10", wrap pm10v)]

theorem parseFloat_str_eq_num (s : String) : parseFloat (.str s) = parseFloat (.num s) := rfl

theorem parseInt64_str_of_num (s : String) (v : Int) (h : parseInt64 (.num s) = some v) :
    parseInt64 (.str s) = some v := by
  have hg : parseGoInt s = some v := h
  simp [parseInt64, hg]

section ReadingPayloadFacts

variable (wrap : String → JsonValue) (ts temp pres hum ox red nh3v pm1v pm2v pm10v : String)

theorem firstUnknownKey_rp :
    firstUnknownKey (readingPayload wrap ts temp pres hum ox red nh3v pm1v pm2v pm10v) = none := rfl

theorem lookup_rp_timestamp :
    lookupField (readingPayload wrap ts temp pres hum ox red nh3v pm1v pm2v pm10v) "timestamp" =
      some (wrap ts) := rfl

theorem lookup_rp_temperature :
    lookupField (readingPayload wrap ts temp pres hum ox red nh3v pm1v pm2v pm10v) "temperature" =
      some (wrap temp) := rfl

theorem lookup_rp_pressure :
    lookupField (readingPayload wrap ts temp pres hum ox red nh3v pm1v pm2v pm10v) "pressure" =
      some (wrap pres) := rfl

theorem lookup_rp_humidity :
    lookupField (readingPayload wrap ts temp pres hum ox red nh3v pm1v pm2v pm10v) "humidity" =
      some (wrap hum) := rfl

theorem lookup_rp_oxidised :
    lookupField (readingPayload wrap ts temp pres hum ox red nh3v pm1v pm2v pm10v) "oxidised" =
      some (wrap ox) := rfl

theorem lookup_rp_reduced :
    lookupField (readingPayload wrap ts temp pres hum ox red nh3v pm1v pm2v pm10v) "reduced" =
      some (wrap red) := rfl

theorem lookup_rp_nh3 :
    lookupField (readingPayload wrap ts temp pres hum ox red nh3v pm1v pm2v pm10v) "nh3" =
      some (wrap nh3v) := rfl

theorem lookup_rp_pm1 :
    lookupField (readingPayload wrap ts temp pres hum ox red nh3v pm1v pm2v pm10v) "pm1" =
      some (wrap pm1v) := rfl

theorem lookup_rp_pm2 :
    lookupField (readingPayload wrap ts temp pres hum ox red nh3v pm1v pm2v pm10v) "pm2" =
      some (wrap pm2v) := rfl

theorem lookup_rp_pm10 :
    lookupField (readingPayload wrap ts temp pres hum ox red nh3v pm1v pm2v pm10v) "pm10" =
      some (wrap pm10v) := rfl

end ReadingPayloadFacts

/-- C7: the lenient ingest codec treats a decimal string exactly like the
corresponding JSON number: whenever the all-number object decodes to a
reading, the object with every field written as a decimal string decodes to
the numerically identical reading; each metric field accepts a number or a
decimal-literal string via the same `strconv.ParseFloat`, and the timestamp
additionally accepts a float string, truncated to `int64`. -/
theorem c7_codec_string_number_equivalence :
    (∀ ts temp pres hum ox red nh3v pm1v pm2v pm10v r,
      decodeReadingPayload (readingPayload .num ts temp pres hum ox red nh3v pm1v pm2v pm10v) =
        .ok r →
      decodeReadingPayload (readingPayload .str ts temp pres hum ox red nh3v pm1v pm2v pm10v) =
        .ok r) ∧
    (∀ s, parseFloat (.str s) = parseFloat (.num s)) ∧
    (∀ s q, parseGoInt s = none → parseGoFloat s = some q →
      parseInt64 (.str s) = some (truncToInt64 q)) := by
  refine ⟨?_, parseFloat_str_eq_num, ?_⟩
  · intro ts temp pres hum ox red nh3v pm1v pm2v pm10v r h
    simp only [decodeReadingPayload, parseInt64Field, parseFloatField, firstUnknownKey_rp,
      lookup_rp_timestamp, lookup_rp_temperature, lookup_rp_pressure, lookup_rp_humidity,
      lookup_rp_oxidised, lookup_rp_reduced, lookup_rp_nh3, lookup_rp_pm1, lookup_rp_pm2,
      lookup_rp_pm10] at h ⊢
    cases hts : parseInt64 (.num ts) with
    | none => simp only [hts] at h; exact Except.noConfusion h
    | some t =>
      simp only [hts] at h
      simp only [parseInt64_str_of_num ts t hts, parseFloat_str_eq_num]
      exact h
  · intro s q hint hfloat
    simp [parseInt64, hint, hfloat]

/-- The concrete reading of spec scenario 1. -/
def sampleReading : SensorReading :=
  { timestamp := 1738886400, temperature := 224/10, pressure := 1013052/10,
    humidity := 401/10, oxidised := 12/10, reduced := 11/10, nh3 := 7/10,
    pm1 := 2, pm2 := 3, pm10 := 4 }

/-- C7 witness: the equivalence applied to the spec's concrete payload. -/
theorem c7_codec_witness :
    decodeReadingPayload
        (readingPayload .str "1738886400" "22.4" "101305.2" "40.1" "1.2" "1.1" "0.7" "2" "3" "4") =
      .ok sampleReading :=
  c7_codec_string_number_equivalence.1
    "1738886400" "22.4" "101305.2" "40.1" "1.2" "1.1" "0.7" "2" "3" "4" sampleReading
    (by with_unfolding_all rfl)

theorem error_eq_of {α : Type} {a b : DecodeError}
    (h : (Except.error a : Except DecodeError α) = .error b) : b = a :=
  (Except.error.inj h).symm

theorem parseInt64Field_error_shape (p : Payload) (k : String) (e : DecodeError)
    (h : parseInt64Field p k = .error e) : e = .missingField k ∨ e = .invalidField k := by
  unfold parseInt64Field at h
  split at h
  · exact Or.inl (error_eq_of h)
  · split at h
    · exact Or.inr (error_eq_of h)
    · exact Except.noConfusion h

theorem parseFloatField_error_shape (p : Payload) (k : String) (e : DecodeError)
    (h : parseFloatField p k = .error e) : e = .missingField k ∨ e = .invalidField k := by
  unfold parseFloatField at h
  split at h
  · exact Or.inl (error_eq_of h)
  · split at h
    · exact Or.inr (error_eq_of h)
    · exact Except.noConfusion h

/-- Every error of `decodeReadingPayload` is one of the four per-element
failure modes: unknown key, missing field, invalid (unparsable) field, or a
timestamp resolving to 0. -/
theorem decodeReadingPayload_error_shape (p : Payload) (e : DecodeError)
    (h : decodeReadingPayload p = .error e) :
    (∃ k, e = DecodeError.unknownField k) ∨ (∃ k, e = DecodeError.missingField k) ∨
    (∃ k, e = DecodeError.invalidField k) ∨ e = DecodeError.missingTimestamp := by
  have fieldCase : ∀ (e0 : DecodeError) (k : String), e = e0 →
      (e0 = DecodeError.missingField k ∨ e0 = DecodeError.invalidField k) →
      (∃ k, e = DecodeError.unknownField k) ∨ (∃ k, e = DecodeError.missingField k) ∨
      (∃ k, e = DecodeError.invalidField k) ∨ e = DecodeError.missingTimestamp := by
    rintro e0 k rfl (h1 | h1)
    · exact Or.inr (Or.inl ⟨k, h1⟩)
    · exact Or.inr (Or.inr (Or.inl ⟨k, h1⟩))
  unfold decodeReadingPayload at h
  split at h
  · rename_i key _
    exact Or.inl ⟨key, error_eq_of h⟩
  split at h
  · rename_i e0 heq
    exact fieldCase e0 _ (error_eq_of h) (parseInt64Field_error_shape _ _ _ heq)
  split at h
  · exact Or.inr (Or.inr (Or.inr (error_eq_of h)))
  split at h
  · rename_i e0 heq
    exact fieldCase e0 _ (error_eq_of h) (parseFloatField_error_shape _ _ _ heq)
  split at h
  · rename_i e0 heq
    exact fieldCase e0 _ (error_eq_of h) (parseFloatField_error_shape _ _ _ heq)
  split at h
  · rename_i e0 heq
    exact fieldCase e0 _ (error_eq_of h) (parseFloatField_error_shape _ _ _ heq)
  split at h
  · rename_i e0 heq
    exact fieldCase e0 _ (error_eq_of h) (parseFloatField_error_shape _ _ _ heq)
  split at h
  · rename_i e0 heq
    exact fieldCase e0 _ (error_eq_of h) (parseFloatField_error_shape _ _ _ heq)
  split at h
  · rename_i e0 heq
    exact fieldCase e0 _ (error_eq_of h) (parseFloatField_error_shape _ _ _ heq)
  split at h
  · rename_i e0 heq
    exact fieldCase e0 _ (error_eq_of h) (parseFloatField_error_shape _ _ _ heq)
  split at h
  · rename_i e0 heq
    exact fieldCase e0 _ (error_eq_of h) (parseFloatField_error_shape _ _ _ heq)
  split at h
  · rename_i e0 heq
    exact fieldCase e0 _ (error_eq_of h) (parseFloatField_error_shape _ _ _ heq)
  exact Except.noConfusion h

theorem decodeReadingsIndexed_ok_of_forall₂ (ps : List Payload) (rs : List SensorReading)
    (h : List.Forall₂ (fun p r => decodeReadingPayload p = .ok r) ps rs) :
    ∀ idx, decodeReadingsIndexed ps idx = .ok rs := by
  induction h with
  | nil => intro idx; rfl
  | cons hpr _ ih =>
    intro idx
    simp only [decodeReadingsIndexed, hpr, ih (idx + 1)]

theorem decodeReadingsIndexed_first_error (good : List Payload) (bad : Payload)
    (rest : List Payload) (e : DecodeError)
    (hgood : ∀ p ∈ good, ∃ r, decodeReadingPayload p = .ok r)
    (hbad : decodeReadingPayload bad = .error e) :
    ∀ idx, decodeReadingsIndexed (good ++ bad :: rest) idx =
      .error (.atIndex (idx + good.length) e) := by
  induction good with
  | nil => intro idx; simp [decodeReadingsIndexed, hbad]
  | cons p ps ih =>
    intro idx
    obtain ⟨r, hr⟩ := hgood p (List.mem_cons_self p ps)
    have htail := ih (fun q hq => hgood q (List.mem_cons_of_mem p hq)) (idx + 1)
    have harith : idx + 1 + ps.length = idx + (p :: ps).length := by
      simp only [List.length_cons]
      omega
    simp only [List.cons_append, decodeReadingsIndexed, hr, List.append_eq, htail, harith]

/-- C8: `DecodeReadingsBatch` rejects an empty array, rejects an oversized
array with a message naming the maximum (`batch exceeds max size of 1000`
for max 1000), reports the first failing element's error wrapped with its
index (the failure being an unknown key, a missing field, an unparsable
value, or a zero timestamp), and otherwise returns all readings in array
order. -/
theorem c8_decode_batch (payloads : List Payload) (maxBatchSize : Nat) :
    (payloads = [] → decodeReadingsBatch payloads maxBatchSize = .error .batchEmpty) ∧
    (maxBatchSize < payloads.length →
      decodeReadingsBatch payloads maxBatchSize = .error (.batchTooLarge maxBatchSize) ∧
      decodeErrorMessage (.batchTooLarge maxBatchSize) =
        "batch exceeds max size of " ++ toString maxBatchSize) ∧
    (∀ good bad rest e, payloads = good ++ bad :: rest →
      payloads.length ≤ maxBatchSize →
      (∀ p ∈ good, ∃ r, decodeReadingPayload p = .ok r) →
      decodeReadingPayload bad = .error e →
      decodeReadingsBatch payloads maxBatchSize = .error (.atIndex good.length e) ∧
      ((∃ k, e = DecodeError.unknownField k) ∨ (∃ k, e = DecodeError.missingField k) ∨
        (∃ k, e = DecodeError.invalidField k) ∨ e = DecodeError.missingTimestamp)) ∧
    (∀ rs, payloads ≠ [] → payloads.length ≤ maxBatchSize →
      List.Forall₂ (fun p r => decodeReadingPayload p = .ok r) payloads rs →
      decodeReadingsBatch payloads maxBatchSize = .ok rs) := by
  refine ⟨fun h => by subst h; rfl, fun h => ⟨?_, rfl⟩, ?_, ?_⟩
  · have hne : payloads ≠ [] := by
      intro hnil
      rw [hnil] at h
      exact absurd h (by simp)
    simp only [decodeReadingsBatch, List.isEmpty_eq_true, hne, if_false, if_pos h]
  · intro good bad rest e hsplit hlen hgood hbad
    refine ⟨?_, decodeReadingPayload_error_shape bad e hbad⟩
    subst hsplit
    have hne : good ++ bad :: rest ≠ [] := by simp
    simp only [decodeReadingsBatch, List.isEmpty_eq_true, hne, if_false,
      if_neg (by omega : ¬ maxBatchSize < (good ++ bad :: rest).length)]
    simpa using decodeReadingsIndexed_first_error good bad rest e hgood hbad 0
  · intro rs hne hlen hall
    simp only [decodeReadingsBatch, List.isEmpty_eq_true, hne, if_false,
      if_neg (by omega : ¬ maxBatchSize < payloads.length)]
    exact decodeReadingsIndexed_ok_of_forall₂ payloads rs hall 0

/-- A fully numeric sample payload for witnesses. -/
def sampleBatchPayload : Payload :=
  readingPayload .num "1738886400" "22.4" "101305.2" "40.1" "1.2" "1.1" "0.7" "2" "3" "4"

/-- A payload whose timestamp resolves to 0. -/
def zeroTimestampPayload : Payload :=
  readingPayload .num "0" "1" "1" "1" "1" "1" "1" "1" "1" "1"

/-- C8 witness: the theorem applied to concrete batches — a batch whose
second element has a zero timestamp, the empty batch, and a batch of 1001
elements against the handler's max of 1000. -/
theorem c8_decode_batch_witness :
    decodeReadingsBatch [sampleBatchPayload, zeroTimestampPayload] 1000 =
      .error (.atIndex 1 .missingTimestamp) ∧
    decodeReadingsBatch ([] : List Payload) 1000 = .error .batchEmpty ∧
    decodeReadingsBatch (List.replicate 1001 sampleBatchPayload) 1000 =
      .error (.batchTooLarge 1000) ∧
    decodeErrorMessage (.batchTooLarge 1000) = "batch exceeds max size of 1000" := by
  refine ⟨?_, ?_, ?_, ?_⟩
  · exact ((c8_decode_batch [sampleBatchPayload, zeroTimestampPayload] 1000).2.2.1
      [sampleBatchPayload] zeroTimestampPayload [] .missingTimestamp rfl (by norm_num)
      (by
        intro p hp
        rw [List.mem_singleton] at hp
        subst hp
        exact ⟨sampleReading, by with_unfolding_all rfl⟩)
      (by with_unfolding_all rfl)).1
  · exact (c8_decode_batch ([] : List Payload) 1000).1 rfl
  · exact ((c8_decode_batch (List.replicate 1001 sampleBatchPayload) 1000).2.1
      (by rw [List.length_replicate]; omega)).1
  · exact ((c8_decode_batch (List.replicate 1001 sampleBatchPayload) 1000).2.1
      (by rw [List.length_replicate]; omega)).2

/-! ## Insights scheduler configuration

`time.Duration` values are `Int` nanoseconds. -/

def timeSecond : Int := 1000000000

def timeMinute : Int := 60 * timeSecond

def timeHour : Int := 60 * timeMinute

structure InsightsSchedulerConfig where
  AnalysisLimit : Int
  RefreshInterval : Int
  EventMinInterval : Int
  PM2Threshold : ℚ
  PM10Threshold : ℚ
  PM2DeltaTrigger : ℚ
  PM10DeltaTrigger : ℚ
  AnalyzeTimeout : Int
  deriving Repr, DecidableEq

/-- `DefaultInsightsSchedulerConfig` from the `server` package. -/
def DefaultInsightsSchedulerConfig : InsightsSchedulerConfig :=
  { AnalysisLimit := 900, RefreshInterval := timeHour, EventMinInterval := 10 * timeMinute,
    PM2Threshold := 8, PM10Threshold := 30, PM2DeltaTrigger := 3, PM10DeltaTrigger := 10,
    AnalyzeTimeout := 15 * timeSecond }

/-- The field-by-field sanitization `NewInsightsScheduler` applies to the
configuration it is given, replacing out-of-range values by the package
defaults. -/
def sanitizeSchedulerConfig (config : InsightsSchedulerConfig) : InsightsSchedulerConfig :=
  let defaults := DefaultInsightsSchedulerConfig
  let cfg := config
  let cfg := if cfg.AnalysisLimit < 30 then { cfg with AnalysisLimit := defaults.AnalysisLimit } else cfg
  let cfg := if cfg.RefreshInterval < timeMinute then { cfg with RefreshInterval := defaults.RefreshInterval } else cfg
  let cfg := if cfg.EventMinInterval < timeSecond then { cfg with EventMinInterval := defaults.EventMinInterval } else cfg
  let cfg := if cfg.PM2Threshold ≤ 0 then { cfg with PM2Threshold := defaults.PM2Threshold } else cfg
  let cfg := if cfg.PM10Threshold ≤ 0 then { cfg with PM10Threshold := defaults.PM10Threshold } else cfg
  let cfg := if cfg.PM2DeltaTrigger ≤ 0 then { cfg with PM2DeltaTrigger := defaults.PM2DeltaTrigger } else cfg
  let cfg := if cfg.PM10DeltaTrigger ≤ 0 then { cfg with PM10DeltaTrigger := defaults.PM10DeltaTrigger } else cfg
  let cfg := if cfg.AnalyzeTimeout ≤ 0 then { cfg with AnalyzeTimeout := defaults.AnalyzeTimeout } else cfg
  cfg

/-! ### `main`'s environment parsing

The environment is a partial map from variable name to value; an unset
variable is `none` (`os.Getenv` returning `""` follows the same fallback
path in every `...OrDefault` helper). -/

/-- `intOrDefault` from `cmd/server/main.go` (`strconv.Atoi`). -/
def intOrDefault (raw : Option String) (fallback : Int) : Int :=
  match raw with
  | none => fallback
  | some s =>
    let v := s.trim
    if v = "" then fallback
    else
      match parseGoInt v with
      | none => fallback
      | some n => n

/-- `floatOrDefault` from `cmd/server/main.go` (`strconv.ParseFloat`). -/
def floatOrDefault (raw : Option String) (fallback : ℚ) : ℚ :=
  match raw with
  | none => fallback
  | some s =>
    let v := s.trim
    if v = "" then fallback
    else
      match parseGoFloat v with
      | none => fallback
      | some q => q

/-- The nanoseconds of one `time.ParseDuration` unit suffix.  `ms` is
matched before the bare `m`. -/
def durationUnitNs : List Char → Option (Int × List Char)
  | 'n' :: 's' :: rest => some (1, rest)
  | 'u' :: 's' :: rest => some (1000, rest)
  | 'µ' :: 's' :: rest => some (1000, rest)
  | 'μ' :: 's' :: rest => some (1000, rest)
  | 'm' :: 's' :: rest => some (1000000, rest)
  | 'm' :: rest => some (60000000000, rest)
  | 's' :: rest => some (1000000000, rest)
  | 'h' :: rest => some (3600000000000, rest)
  | _ => none

/-- One `number unit` chunk of `time.ParseDuration`: digits with an
optional fractional part, then a unit; the fractional contribution is
truncated to whole nanoseconds (the float rounding of the Go original is
abstracted to exact rational arithmetic). -/
def parseDurationChunk (cs : List Char) : Option (Int × List Char) :=
  let (intDs, cs1) := cs.span Char.isDigit
  let (fracDs, cs2) :=
    match cs1 with
    | '.' :: rest => rest.span Char.isDigit
    | _ => (([] : List Char), cs1)
  if intDs.isEmpty ∧ fracDs.isEmpty then none
  else
    match durationUnitNs cs2 with
    | none => none
    | some (unit, rest) =>
      let whole : Int := (natOfDigits intDs : Int) * unit
      let frac : Int := ⌊(natOfDigits fracDs : ℚ) / (10 : ℚ) ^ fracDs.length * (unit : ℚ)⌋
      some (whole + frac, rest)

/-- The chunk loop of `time.ParseDuration`; fuel is the character count, and
each chunk consumes at least one character. -/
def parseDurationLoop : Nat → List Char → Int → Option Int
  | _, [], acc => some acc
  | 0, _ :: _, _ => none
  | fuel + 1, cs, acc =>
    match parseDurationChunk cs with
    | none => none
    | some (v, rest) => parseDurationLoop fuel rest (acc + v)

/-- Model of `time.ParseDuration`: optional sign, the special literal `0`,
or one or more `number unit` chunks. -/
def parseGoDuration (s : String) : Option Int :=
  let cs := s.toList
  let (neg, cs) :=
    match cs with
    | '-' :: rest => (true, rest)
    | '+' :: rest => (false, rest)
    | _ => (false, cs)
  if cs = ['0'] then some 0
  else if cs.isEmpty then none
  else
    match parseDurationLoop (cs.length + 1) cs 0 with
    | none => none
    | some v => some (if neg then -v else v)

/-- `durationOrDefault` from `cmd/server/main.go`: parse failures and
non-positive durations fall back. -/
def durationOrDefault (raw : Option String) (fallback : Int) : Int :=
  match raw with
  | none => fallback
  | some s =>
    let v := s.trim
    if v = "" then fallback
    else
      match parseGoDuration v with
      | none => fallback
      | some d => if d ≤ 0 then fallback else d

/-- The `InsightsSchedulerConfig` `main` builds from the environment when
`OPENAI_API_KEY` is set, with the fallback literals of `main.go`. -/
def mainInsightsConfig (env : String → Option String) : InsightsSchedulerConfig :=
  { AnalysisLimit := intOrDefault (env "OPENAI_INSIGHTS_ANALYSIS_LIMIT") 900,
    RefreshInterval := durationOrDefault (env "OPENAI_INSIGHTS_REFRESH_INTERVAL") timeHour,
    EventMinInterval :=
      durationOrDefault (env "OPENAI_INSIGHTS_EVENT_MIN_INTERVAL") (10 * timeMinute),
    PM2Threshold := floatOrDefault (env "OPENAI_INSIGHTS_PM2_TRIGGER") 15,
    PM10Threshold := floatOrDefault (env "OPENAI_INSIGHTS_PM10_TRIGGER") 45,
    PM2DeltaTrigger := floatOrDefault (env "OPENAI_INSIGHTS_PM2_DELTA_TRIGGER") 8,
    PM10DeltaTrigger := floatOrDefault (env "OPENAI_INSIGHTS_PM10_DELTA_TRIGGER") 15,
    AnalyzeTimeout := durationOrDefault (env "OPENAI_INSIGHTS_ANALYZE_TIMEOUT") (15 * timeSecond) }

/-- The configuration in effect when every environment variable is unset:
`main`'s fallbacks passed through the scheduler's sanitization. -/
def effectiveDefaultConfig : InsightsSchedulerConfig :=
  sanitizeSchedulerConfig (mainInsightsConfig fun _ => none)

/-- C4, counterexample: with every `OPENAI_INSIGHTS_*` variable unset, the
effective scheduler configuration has PM2/PM10 thresholds 15 and 45 and
|Δ| triggers 8 and 15 — not 8/30 and 5/15 as claimed. -/
theorem c4_trigger_defaults_counterexample :
    effectiveDefaultConfig.PM2Threshold = 15 ∧
    ¬ (effectiveDefaultConfig.PM2Threshold = 8 ∧
       effectiveDefaultConfig.PM10Threshold = 30 ∧
       effectiveDefaultConfig.PM2DeltaTrigger = 5 ∧
       effectiveDefaultConfig.PM10DeltaTrigger = 15) := by
  have h15 : effectiveDefaultConfig.PM2Threshold = 15 := by with_unfolding_all rfl
  refine ⟨h15, ?_⟩
  rintro ⟨h8, -, -, -⟩
  exact absurd (h15.symm.trans h8) (by norm_num)

/-- C4 (amended): with the corresponding environment variables unset, `main`
supplies PM2/PM10 upward-crossing thresholds 15 and 45 and PM2/PM10 |Δ|
triggers 8 and 15, and the scheduler's sanitization keeps them; the
package-level `DefaultInsightsSchedulerConfig` (in effect only when no
explicit configuration is supplied) carries thresholds 8 and 30 and |Δ|
triggers 3 and 10. -/
theorem c4_trigger_defaults_amended :
    effectiveDefaultConfig = mainInsightsConfig (fun _ => none) ∧
    effectiveDefaultConfig.PM2Threshold = 15 ∧
    effectiveDefaultConfig.PM10Threshold = 45 ∧
    effectiveDefaultConfig.PM2DeltaTrigger = 8 ∧
    effectiveDefaultConfig.PM10DeltaTrigger = 15 ∧
    DefaultInsightsSchedulerConfig.PM2Threshold = 8 ∧
    DefaultInsightsSchedulerConfig.PM10Threshold = 30 ∧
    DefaultInsightsSchedulerConfig.PM2DeltaTrigger = 3 ∧
    DefaultInsightsSchedulerConfig.PM10DeltaTrigger = 10 := by
  refine ⟨?_, ?_, ?_, ?_, ?_, rfl, rfl, rfl, rfl⟩ <;> with_unfolding_all rfl

/-! ## Event triggers (`InsightsScheduler.shouldTriggerFromReading`)

`OnReading` requests an `event` recompute exactly when this predicate
fires; `OnBatch` feeds its readings through it until the first firing.
The comparison state is `lastReading` (the previously delivered reading)
and `lastEventTrigger` (`none` is the zero `time.Time`). -/

structure TriggerState where
  lastReading : Option SensorReading
  lastEventTrigger : Option Int
  deriving Repr, DecidableEq

/-- `shouldTriggerFromReading`: the first reading seeds the state; then a
trigger requires an upward PM2/PM10 threshold crossing (`pm2Crossed`,
`pm10Crossed`) or a |Δ| of at least the delta trigger (`pm2Jumped`,
`pm10Jumped`), subject to the `EventMinInterval` throttle, which also marks
`lastEventTrigger` when it passes. -/
def shouldTriggerFromReading (config : InsightsSchedulerConfig) (now : Int)
    (st : TriggerState) (reading : SensorReading) : Bool × TriggerState :=
  match st.lastReading with
  | none => (false, { st with lastReading := some reading })
  | some previous =>
    if ¬ ((previous.pm2 < config.PM2Threshold ∧ config.PM2Threshold ≤ reading.pm2) ∨
          (previous.pm10 < config.PM10Threshold ∧ config.PM10Threshold ≤ reading.pm10) ∨
          config.PM2DeltaTrigger ≤ |reading.pm2 - previous.pm2| ∨
          config.PM10DeltaTrigger ≤ |reading.pm10 - previous.pm10|) then
      (false, { st with lastReading := some reading })
    else
      match st.lastEventTrigger with
      | some last =>
        if now - last < config.EventMinInterval then
          (false, { st with lastReading := some reading })
        else
          (true, { lastReading := some reading, lastEventTrigger := some now })
      | none => (true, { lastReading := some reading, lastEventTrigger := some now })

/-- `OnBatch`: scan the batch in order, requesting a single event recompute
at the first reading that fires. -/
def onBatch (config : InsightsSchedulerConfig) (now : Int) :
    TriggerState → List SensorReading → Bool × TriggerState
  | st, [] => (false, st)
  | st, reading :: rest =>
    let (trig, st1) := shouldTriggerFromReading config now st reading
    if trig then (true, st1) else onBatch config now st1 rest

/-- C3: a delivered reading requests an event recompute iff it is not the
first reading ever seen, at least one of the four PM conditions holds
against the previous reading (upward PM2/PM10 threshold crossing, or a
PM2/PM10 |Δ| at least the delta trigger), and any previous event trigger is
at least `EventMinInterval` in the past; the first reading only seeds the
comparison state, and `lastReading` is always updated to the delivered
reading. -/
theorem c3_should_trigger_iff (config : InsightsSchedulerConfig) (now : Int)
    (st : TriggerState) (reading : SensorReading) :
    ((shouldTriggerFromReading config now st reading).1 = true ↔
      (∃ previous, st.lastReading = some previous ∧
        ((previous.pm2 < config.PM2Threshold ∧ config.PM2Threshold ≤ reading.pm2) ∨
         (previous.pm10 < config.PM10Threshold ∧ config.PM10Threshold ≤ reading.pm10) ∨
         config.PM2DeltaTrigger ≤ |reading.pm2 - previous.pm2| ∨
         config.PM10DeltaTrigger ≤ |reading.pm10 - previous.pm10|) ∧
        (∀ last, st.lastEventTrigger = some last → config.EventMinInterval ≤ now - last))) ∧
    (st.lastReading = none →
      shouldTriggerFromReading config now st reading =
        (false, { st with lastReading := some reading })) ∧
    (shouldTriggerFromReading config now st reading).2.lastReading = some reading := by
  refine ⟨?_, ?_, ?_⟩
  · cases hlr : st.lastReading with
    | none => simp [shouldTriggerFromReading, hlr]
    | some previous =>
      simp only [shouldTriggerFromReading, hlr]
      split
      · rename_i hnot
        refine iff_of_false (by simp) ?_
        rintro ⟨p, hp, hcond, -⟩
        obtain rfl := Option.some.inj hp
        exact hnot hcond
      · rename_i hcond
        rw [not_not] at hcond
        split
        · rename_i last hlet
          split
          · rename_i hthrottle
            refine iff_of_false (by simp) ?_
            rintro ⟨p, -, -, hgap⟩
            have := hgap last hlet
            omega
          · rename_i hthrottle
            refine iff_of_true rfl ⟨previous, rfl, hcond, fun l hl => ?_⟩
            rw [hlet] at hl
            obtain rfl := Option.some.inj hl
            omega
        · rename_i hlet
          exact iff_of_true rfl ⟨previous, rfl, hcond, fun l hl => by rw [hlet] at hl; cases hl⟩
  · intro h
    simp [shouldTriggerFromReading, h]
  · unfold shouldTriggerFromReading
    repeat' split
    all_goals rfl

/-- C3 witness: with default thresholds, a PM2 jump from 1 to 9 crosses
threshold 8 and fires on the second reading; the first reading does not. -/
theorem c3_should_trigger_witness :
    (shouldTriggerFromReading DefaultInsightsSchedulerConfig 0
      { lastReading := none, lastEventTrigger := none } dummyReading).1 = false ∧
    (shouldTriggerFromReading DefaultInsightsSchedulerConfig 0
      { lastReading := some { dummyReading with pm2 := 1 }, lastEventTrigger := none }
      { dummyReading with pm2 := 9 }).1 = true := by
  constructor
  · have h := (c3_should_trigger_iff DefaultInsightsSchedulerConfig 0
      { lastReading := none, lastEventTrigger := none } dummyReading).2.1 rfl
    rw [h]
  · rw [(c3_should_trigger_iff DefaultInsightsSchedulerConfig 0
      { lastReading := some { dummyReading with pm2 := 1 }, lastEventTrigger := none }
      { dummyReading with pm2 := 9 }).1]
    exact ⟨{ dummyReading with pm2 := 1 }, rfl,
      Or.inl ⟨by norm_num [dummyReading, DefaultInsightsSchedulerConfig],
        by norm_num [dummyReading, DefaultInsightsSchedulerConfig]⟩,
      fun last hlast => by cases hlast⟩

/-! ## Recompute serialization (`requestRecompute` / `recomputeLoop`)

The mutex-protected flag logic is a transition system.  `running` is true
exactly while a `recomputeLoop` goroutine is alive; `inFlight` counts live
loop goroutines (each runs its analyzer calls sequentially, so analyzer
calls in flight equals `inFlight`).  A `request trigger` event is one
`requestRecompute(trigger)` critical section; a `finish` event is the
flag check a loop performs when its current `recompute` returns, and it
either starts the follow-up run with trigger `pending` or exits. -/

structure SchedState where
  running : Bool
  pending : Bool
  inFlight : Nat
  deriving Repr, DecidableEq

inductive SchedEvent where
  | request (trigger : String)
  | finish
  deriving Repr, DecidableEq

def initialSchedState : SchedState := { running := false, pending := false, inFlight := 0 }

/-- One atomic flag transition; the second component lists the triggers of
recompute runs started by the transition. -/
def schedStep : SchedState → SchedEvent → SchedState × List String
  | st, .request trigger =>
    if st.running then ({ st with pending := true }, [])
    else ({ st with running := true, inFlight := st.inFlight + 1 }, [trigger])
  | st, .finish =>
    if st.pending then ({ st with pending := false }, ["pending"])
    else ({ st with running := false, inFlight := st.inFlight - 1 }, [])

def schedRun : SchedState → List SchedEvent → SchedState × List String
  | st, [] => (st, [])
  | st, e :: evs =>
    let step := schedStep st e
    let rest := schedRun step.1 evs
    (rest.1, step.2 ++ rest.2)

/-- A trace is valid when every `finish` is emitted by a live loop. -/
def ValidTrace : SchedState → List SchedEvent → Prop
  | _, [] => True
  | st, e :: evs => (e = .finish → st.running = true) ∧ ValidTrace (schedStep st e).1 evs

/-- The reachable-state invariant of the scheduler flags. -/
def SchedInv (st : SchedState) : Prop :=
  (st.pending = true → st.running = true) ∧ st.inFlight = (if st.running then 1 else 0)

theorem schedStep_inv (st : SchedState) (e : SchedEvent)
    (hv : e = .finish → st.running = true) (h : SchedInv st) : SchedInv (schedStep st e).1 := by
  obtain ⟨hpr, hif⟩ := h
  cases e with
  | request trigger =>
    simp only [schedStep]
    split
    · rename_i hr
      exact ⟨fun _ => hr, hif⟩
    · rename_i hr
      have hr' : st.running = false := by simpa using hr
      exact ⟨fun _ => rfl, by simp [hif, hr']⟩
  | finish =>
    have hr := hv rfl
    simp only [schedStep]
    split
    · rename_i hp
      exact ⟨fun _ => hr, hif⟩
    · rename_i hp
      exact ⟨fun hc => absurd hc hp, by simp [hif, hr]⟩

theorem schedRun_inv (evs : List SchedEvent) :
    ∀ st, SchedInv st → ValidTrace st evs → SchedInv (schedRun st evs).1 := by
  induction evs with
  | nil => intro st h _; exact h
  | cons e evs ih =>
    intro st h hv
    exact ih (schedStep st e).1 (schedStep_inv st e hv.1 h) hv.2

/-- C1: the insights engine never has two analyzer calls in flight — along
every valid event trace from the idle initial state at most one
`recomputeLoop` is alive; every request arriving while one is running only
sets the pending flag and starts nothing, and when the running recompute
completes exactly one follow-up run starts with trigger `pending`,
regardless of how many requests arrived; with no request during the run,
the finish transition returns the engine to idle. -/
theorem c1_recompute_coalescing :
    (∀ evs, ValidTrace initialSchedState evs →
      (schedRun initialSchedState evs).1.inFlight ≤ 1) ∧
    (∀ (p : Bool) (evs : List SchedEvent), evs ≠ [] →
      (∀ e ∈ evs, ∃ t, e = SchedEvent.request t) →
      schedRun { running := true, pending := p, inFlight := 1 } evs =
        ({ running := true, pending := true, inFlight := 1 }, []) ∧
      schedStep { running := true, pending := true, inFlight := 1 } .finish =
        ({ running := true, pending := false, inFlight := 1 }, ["pending"])) ∧
    (schedStep { running := true, pending := false, inFlight := 1 } .finish =
      ({ running := false, pending := false, inFlight := 0 }, [])) := by
  refine ⟨?_, ?_, rfl⟩
  · intro evs hv
    have h := schedRun_inv evs initialSchedState ⟨by simp [initialSchedState], rfl⟩ hv
    rw [h.2]
    by_cases hr : (schedRun initialSchedState evs).1.running = true <;> simp [hr]
  · intro p evs hne hall
    refine ⟨?_, rfl⟩
    induction evs generalizing p with
    | nil => exact absurd rfl hne
    | cons e evs ih =>
      obtain ⟨t, rfl⟩ := hall e (List.mem_cons_self e evs)
      by_cases hevs : evs = []
      · subst hevs; rfl
      · have step := ih (p := true) hevs (fun x hx => hall x (List.mem_cons_of_mem _ hx))
        calc schedRun { running := true, pending := p, inFlight := 1 }
              (SchedEvent.request t :: evs)
            = ((schedRun { running := true, pending := true, inFlight := 1 } evs).1,
                [] ++ (schedRun { running := true, pending := true, inFlight := 1 } evs).2) :=
              rfl
          _ = ({ running := true, pending := true, inFlight := 1 }, []) := by rw [step]; rfl

/-- C1 witness: a concrete trace — startup request, an event request during
the run, the finish that launches the single `pending` follow-up, and its
finish — keeps at most one loop alive; two requests during a run coalesce
into one `pending` follow-up. -/
theorem c1_recompute_coalescing_witness :
    (schedRun initialSchedState
      [.request "startup", .request "event", .finish, .finish]).1.inFlight ≤ 1 ∧
    schedRun { running := true, pending := false, inFlight := 1 }
        [.request "event", .request "interval"] =
      ({ running := true, pending := true, inFlight := 1 }, []) ∧
    schedStep { running := true, pending := true, inFlight := 1 } .finish =
      ({ running := true, pending := false, inFlight := 1 }, ["pending"]) := by
  refine ⟨?_, ?_⟩
  · exact c1_recompute_coalescing.1
      [.request "startup", .request "event", .finish, .finish]
      (by simp [ValidTrace, schedStep, initialSchedState])
  · exact c1_recompute_coalescing.2.1 false [.request "event", .request "interval"]
      (by simp)
      (by
        intro e he
        rcases List.mem_cons.mp he with rfl | he'
        · exact ⟨"event", rfl⟩
        · rcases List.mem_singleton.mp he' with rfl
          exact ⟨"interval", rfl⟩)

/-! ## Insights engine state (`Snapshot`, `recompute`, `handleInsights`) -/

structure Alert where
  Kind : String
  Severity : String
  Title : String
  Message : String
  deriving Repr, DecidableEq

structure InsightsSnapshot where
  Insights : List Alert
  Source : String
  GeneratedAt : Int
  AnalyzedSamples : Int
  AnalysisLimit : Int
  Trigger : String
  deriving Repr, DecidableEq

/-- `cloneAlerts` copies a slice; for immutable lists the copy carries the
same elements. -/
def cloneAlerts (alerts : List Alert) : List Alert := alerts

/-- The engine-owned state a recompute touches: the in-memory snapshot pair
guarded by the mutex, and the snapshot persisted in the store (`none` when
no snapshot row exists or no snapshot store is configured). -/
structure EngineState where
  snapshot : InsightsSnapshot
  hasSnapshot : Bool
  persisted : Option InsightsSnapshot
  deriving Repr, DecidableEq

/-- `InsightsScheduler.Snapshot(limit)`: `none` before the first snapshot;
otherwise a copy of the stored alerts, truncated to `limit` when
`0 < limit < length`. -/
def snapshotQuery (scheduler : EngineState) (limit : Int) : Option InsightsSnapshot :=
  if scheduler.hasSnapshot = false then none
  else
    let snapshot := scheduler.snapshot
    let insights := cloneAlerts snapshot.Insights
    let insights :=
      if 0 < limit ∧ limit < (insights.length : Int) then insights.take limit.toNat
      else insights
    some { snapshot with Insights := insights }

/-- `InsightsScheduler.recompute(trigger)`: load the latest readings, call
the analyzer, and on success replace the in-memory snapshot and persist it
best-effort.  The store read and the analyzer call are the two fallible
collaborators, passed as `Except` results; `saveSucceeds` is false when the
5-second persist fails or no snapshot store is configured (either way the
persisted snapshot is untouched and the in-memory one kept). -/
def recompute (config : InsightsSchedulerConfig) (source : String) (st : EngineState)
    (trigger : String) (now : Int)
    (latestResult : Except String (List SensorReading))
    (analyzeResult : Except String (List Alert))
    (saveSucceeds : Bool) : EngineState :=
  match latestResult with
  | .error _ => st
  | .ok readings =>
    match analyzeResult with
    | .error _ => st
    | .ok alerts =>
      let snapshot : InsightsSnapshot :=
        { Insights := cloneAlerts alerts, Source := source, GeneratedAt := now,
          AnalyzedSamples := readings.length, AnalysisLimit := config.AnalysisLimit,
          Trigger := trigger }
      let st1 := { st with snapshot := snapshot, hasSnapshot := true }
      if saveSucceeds then { st1 with persisted := some snapshot } else st1

inductive InsightsResponse where
  | ok (snapshot : InsightsSnapshot)
  | badRequest (message : String)
  | unavailable (message : String)
  deriving Repr, DecidableEq

/-- `API.handleInsights` for a configured engine: `limit` is validated to
1..3 (`maxInsightsLimit`, default 3); the snapshot is served, or 503 while
warming up. -/
def handleInsights (st : EngineState) (rawLimit : Option String) : InsightsResponse :=
  let parsedLimit : Option Int :=
    match rawLimit with
    | none => some 3
    | some raw =>
      match parseGoInt raw with
      | none => none
      | some v => if v < 1 ∨ 3 < v then none else some v
  match parsedLimit with
  | none => .badRequest "limit must be between 1 and 3"
  | some alertLimit =>
    match snapshotQuery st alertLimit with
    | none => .unavailable "insights are warming up"
    | some snapshot => .ok snapshot

theorem snapshotQuery_ok_shape (st : EngineState) (limit : Int) (snapshot : InsightsSnapshot)
    (hpos : 0 < limit) (h : snapshotQuery st limit = some snapshot) :
    snapshot.Insights.length ≤ limit.toNat ∧
    snapshot.Insights = st.snapshot.Insights.take snapshot.Insights.length := by
  unfold snapshotQuery at h
  split at h
  · exact Option.noConfusion h
  · obtain rfl := Option.some.inj h
    simp only [cloneAlerts]
    split
    · rename_i hcut
      constructor
      · simp only [List.length_take]
        omega
      · simp only [List.length_take]
        rw [List.take_eq_take]
        omega
    · rename_i hcut
      have hle : (st.snapshot.Insights.length : Int) ≤ limit := by
        by_contra hgt
        exact hcut ⟨hpos, by omega⟩
      constructor
      · omega
      · rw [List.take_length]

/-- C6: for every engine state and every `/api/insights` request, a 200
response carries an insights array of length ≤ 3 that is a truncated copy
(a `take`-prefix) of the stored alerts: the `limit` parameter is validated
to 1..3 with default 3, and out-of-range or unparsable limits are rejected
with a 400. -/
theorem c6_insights_cap (st : EngineState) (rawLimit : Option String) :
    (∀ snapshot, handleInsights st rawLimit = .ok snapshot →
      snapshot.Insights.length ≤ 3 ∧
      snapshot.Insights = st.snapshot.Insights.take snapshot.Insights.length) ∧
    (rawLimit = none → handleInsights st rawLimit = handleInsights st (some "3")) ∧
    (∀ raw, rawLimit = some raw →
      (parseGoInt raw = none →
        handleInsights st rawLimit = .badRequest "limit must be between 1 and 3") ∧
      (∀ v, parseGoInt raw = some v → (v < 1 ∨ 3 < v) →
        handleInsights st rawLimit = .badRequest "limit must be between 1 and 3")) := by
  refine ⟨?_, ?_, ?_⟩
  · intro snapshot h
    unfold handleInsights at h
    have main : ∀ alertLimit : Int, 1 ≤ alertLimit → alertLimit ≤ 3 →
        snapshotQuery st alertLimit = some snapshot →
        snapshot.Insights.length ≤ 3 ∧
        snapshot.Insights = st.snapshot.Insights.take snapshot.Insights.length := by
      intro alertLimit h1 h3 hq
      obtain ⟨hlen, hpre⟩ := snapshotQuery_ok_shape st alertLimit snapshot (by omega) hq
      exact ⟨by omega, hpre⟩
    cases rawLimit with
    | none =>
      cases hq : snapshotQuery st 3 with
      | none => simp only [hq] at h; exact InsightsResponse.noConfusion h
      | some s =>
        simp only [hq] at h
        obtain rfl : s = snapshot := by simpa using h
        exact main 3 (by omega) (by omega) hq
    | some raw =>
      cases hp : parseGoInt raw with
      | none => simp only [hp] at h; exact InsightsResponse.noConfusion h
      | some v =>
        simp only [hp] at h
        by_cases hrange : v < 1 ∨ 3 < v
        · simp only [if_pos hrange] at h
          exact InsightsResponse.noConfusion h
        · simp only [if_neg hrange] at h
          push_neg at hrange
          cases hq : snapshotQuery st v with
          | none => simp only [hq] at h; exact InsightsResponse.noConfusion h
          | some s =>
            simp only [hq] at h
            obtain rfl : s = snapshot := by simpa using h
            exact main v hrange.1 hrange.2 hq
  · intro h
    subst h
    rfl
  · rintro raw rfl
    constructor
    · intro hp
      unfold handleInsights
      simp only [hp]
    · intro v hp hrange
      unfold handleInsights
      simp only [hp, if_pos hrange]

/-- An alert used to build concrete engine states in witnesses. -/
def sampleAlert : Alert :=
  { Kind := "insight", Severity := "info", Title := "t", Message := "m" }

/-- A concrete snapshot holding four stored alerts. -/
def sampleEngineSnapshot : InsightsSnapshot :=
  { Insights := List.replicate 4 sampleAlert, Source := "openai", GeneratedAt := 0,
    AnalyzedSamples := 4, AnalysisLimit := 900, Trigger := "startup" }

/-- A concrete engine state holding four stored alerts. -/
def sampleEngineState : EngineState :=
  { snapshot := sampleEngineSnapshot, hasSnapshot := true, persisted := none }

/-- C6 witness: with four stored alerts, the default request serves exactly
three (a prefix of the stored list), and `limit=5` is rejected. -/
theorem c6_insights_cap_witness :
    ((snapshotQuery sampleEngineState 3).get (by with_unfolding_all rfl)).Insights.length ≤ 3 ∧
    handleInsights sampleEngineState (some "5") =
      .badRequest "limit must be between 1 and 3" := by
  constructor
  · exact ((c6_insights_cap sampleEngineState none).1
      ((snapshotQuery sampleEngineState 3).get (by with_unfolding_all rfl))
      (by with_unfolding_all rfl)).1
  · exact ((c6_insights_cap sampleEngineState (some "5")).2.2 "5" rfl).2 5
      (by with_unfolding_all rfl) (by omega)

/-- C5: whenever the analyzer returns an error during a recompute, both the
in-memory snapshot state and the persisted snapshot are exactly as before,
and every `/api/insights` response is unchanged — the analyzer error is
never surfaced to insights consumers. -/
theorem c5_analyzer_error_unchanged (config : InsightsSchedulerConfig) (source : String)
    (st : EngineState) (trigger : String) (now : Int)
    (latestResult : Except String (List SensorReading)) (err : String) (saveSucceeds : Bool) :
    recompute config source st trigger now latestResult (.error err) saveSucceeds = st ∧
    ∀ rawLimit,
      handleInsights (recompute config source st trigger now latestResult (.error err)
        saveSucceeds) rawLimit = handleInsights st rawLimit := by
  have hsame : recompute config source st trigger now latestResult (.error err) saveSucceeds
      = st := by
    cases latestResult <;> rfl
  exact ⟨hsame, fun rawLimit => by rw [hsame]⟩

/-- C5 witness: a concrete recompute against a populated engine state with a
failing analyzer leaves the state and the served response untouched. -/
theorem c5_analyzer_error_unchanged_witness :
    recompute DefaultInsightsSchedulerConfig "openai" sampleEngineState "interval" 42
      (.ok [dummyReading]) (.error "analyzer offline") true = sampleEngineState ∧
    handleInsights
        (recompute DefaultInsightsSchedulerConfig "openai" sampleEngineState "interval" 42
          (.ok [dummyReading]) (.error "analyzer offline") true) none =
      handleInsights sampleEngineState none :=
  ⟨(c5_analyzer_error_unchanged DefaultInsightsSchedulerConfig "openai" sampleEngineState
      "interval" 42 (.ok [dummyReading]) "analyzer offline" true).1,
   (c5_analyzer_error_unchanged DefaultInsightsSchedulerConfig "openai" sampleEngineState
      "interval" 42 (.ok [dummyReading]) "analyzer offline" true).2 none⟩

/-! ## Device-liveness monitor (`onTelemetryReceived` / `evaluateDeviceDisconnect`)

Instants are `Int` nanoseconds (`time.Time`), with the zero time as `none`;
persisted ops events are embedded as `(kind, UnixMilli timestamp)` pairs —
the constant title/detail strings of the Go events are claim-irrelevant and
elided.  The mutex-protected sections are atomic transitions. -/

structure OpsState where
  deviceStateKnown : Bool
  deviceConnected : Bool
  lastDeviceSeenAt : Option Int
  deriving Repr, DecidableEq

structure OpsConfig where
  DeviceOfflineTimeout : Int
  MonitorInterval : Int
  deriving Repr, DecidableEq

def DefaultOpsConfig : OpsConfig :=
  { DeviceOfflineTimeout := 45 * timeSecond, MonitorInterval := 5 * timeSecond }

/-- `time.Time.UnixMilli` of an instant in nanoseconds. -/
def unixMilli (t : Int) : Int := t / 1000000

/-- `API.onTelemetryReceived`: mark the device known, connected and seen
now; persist a `device_connected` event iff the prior state was not
known-and-connected. -/
def onTelemetryReceived (st : OpsState) (now : Int) : OpsState × List (String × Int) :=
  let st1 : OpsState :=
    { deviceStateKnown := true, deviceConnected := true, lastDeviceSeenAt := some now }
  if st.deviceStateKnown = false ∨ st.deviceConnected = false then
    (st1, [("device_connected", unixMilli now)])
  else (st1, [])

/-- `API.evaluateDeviceDisconnect`: on a monitor tick, flip a known,
connected device with a non-zero last-seen time at least
`DeviceOfflineTimeout` in the past to disconnected, persisting one
`device_disconnected` event. -/
def evaluateDeviceDisconnect (config : OpsConfig) (st : OpsState) (now : Int) :
    OpsState × List (String × Int) :=
  if st.deviceStateKnown = true ∧ st.deviceConnected = true then
    match st.lastDeviceSeenAt with
    | none => (st, [])
    | some t =>
      if config.DeviceOfflineTimeout ≤ now - t then
        ({ st with deviceConnected := false }, [("device_disconnected", unixMilli now)])
      else (st, [])
  else (st, [])

inductive MonitorEvent where
  | ingest (now : Int)
  | tick (now : Int)
  deriving Repr, DecidableEq

def monitorStep (config : OpsConfig) (st : OpsState) :
    MonitorEvent → OpsState × List (String × Int)
  | .ingest now => onTelemetryReceived st now
  | .tick now => evaluateDeviceDisconnect config st now

def monitorRun (config : OpsConfig) : OpsState → List MonitorEvent → OpsState × List (String × Int)
  | st, [] => (st, [])
  | st, e :: evs =>
    let step := monitorStep config st e
    let rest := monitorRun config step.1 evs
    (rest.1, step.2 ++ rest.2)

theorem evaluateDeviceDisconnect_not_connected (config : OpsConfig) (st : OpsState)
    (now : Int) (h : st.deviceConnected = false) :
    evaluateDeviceDisconnect config st now = (st, []) := by
  unfold evaluateDeviceDisconnect
  rw [if_neg]
  rintro ⟨-, hconn⟩
  rw [h] at hconn
  exact Bool.noConfusion hconn

theorem monitorRun_ticks_disconnected (config : OpsConfig) (evs : List MonitorEvent) :
    ∀ st, st.deviceConnected = false → (∀ e ∈ evs, ∃ u, e = MonitorEvent.tick u) →
      monitorRun config st evs = (st, []) := by
  induction evs with
  | nil => intro st _ _; rfl
  | cons e evs ih =>
    intro st h hall
    obtain ⟨u, rfl⟩ := hall e (List.mem_cons_self e evs)
    have hstep : monitorStep config st (.tick u) = (st, []) :=
      evaluateDeviceDisconnect_not_connected config st u h
    have hrest := ih st h (fun x hx => hall x (List.mem_cons_of_mem _ hx))
    simp only [monitorRun, hstep, hrest, List.nil_append]

/-- A tick either leaves the state alone with no event, or flips the
connected flag off with exactly one `device_disconnected` event. -/
theorem evaluateDeviceDisconnect_cases (config : OpsConfig) (st : OpsState) (now : Int) :
    evaluateDeviceDisconnect config st now = (st, []) ∨
    evaluateDeviceDisconnect config st now =
      ({ st with deviceConnected := false }, [("device_disconnected", unixMilli now)]) := by
  unfold evaluateDeviceDisconnect
  split
  · split
    · exact Or.inl rfl
    · split
      · exact Or.inr rfl
      · exact Or.inl rfl
  · exact Or.inl rfl

theorem monitorRun_ticks_length (config : OpsConfig) (evs : List MonitorEvent) :
    ∀ st, (∀ e ∈ evs, ∃ u, e = MonitorEvent.tick u) →
      (monitorRun config st evs).2.length ≤ 1 := by
  induction evs with
  | nil => intro st _; simp [monitorRun]
  | cons e evs ih =>
    intro st hall
    obtain ⟨u, rfl⟩ := hall e (List.mem_cons_self e evs)
    have hall' : ∀ x ∈ evs, ∃ u, x = MonitorEvent.tick u :=
      fun x hx => hall x (List.mem_cons_of_mem _ hx)
    rcases evaluateDeviceDisconnect_cases config st u with hstep | hstep
    · have hrest := ih st hall'
      simpa only [monitorRun, monitorStep, hstep, List.nil_append] using hrest
    · have hrest := monitorRun_ticks_disconnected config evs
        { st with deviceConnected := false } rfl hall'
      simp only [monitorRun, monitorStep, hstep, hrest]
      simp

/-- C9: an ingest arrival marks the device known/connected/seen-now and
persists a `device_connected` event iff the prior state was not connected;
a monitor tick on a known, connected device whose last ingest is at least
`DeviceOfflineTimeout` old flips it to disconnected with exactly one
`device_disconnected` event, ticks can emit an event only under those
conditions, a disconnected device emits nothing under further ticks until
an ingest reconnects it, and any ingest-free tick sequence persists at most
one event in total. -/
theorem c9_device_monitor (config : OpsConfig) (st : OpsState) (now : Int) :
    ((onTelemetryReceived st now).1 =
      { deviceStateKnown := true, deviceConnected := true, lastDeviceSeenAt := some now } ∧
     ((onTelemetryReceived st now).2 = [("device_connected", unixMilli now)] ↔
       ¬ (st.deviceStateKnown = true ∧ st.deviceConnected = true)) ∧
     ((onTelemetryReceived st now).2 = [] ↔
       st.deviceStateKnown = true ∧ st.deviceConnected = true)) ∧
    (∀ t, st.deviceStateKnown = true → st.deviceConnected = true →
      st.lastDeviceSeenAt = some t → config.DeviceOfflineTimeout ≤ now - t →
      evaluateDeviceDisconnect config st now =
        ({ st with deviceConnected := false }, [("device_disconnected", unixMilli now)])) ∧
    ((evaluateDeviceDisconnect config st now).2 ≠ [] →
      st.deviceStateKnown = true ∧ st.deviceConnected = true ∧
      ∃ t, st.lastDeviceSeenAt = some t ∧ config.DeviceOfflineTimeout ≤ now - t) ∧
    (st.deviceConnected = false → ∀ evs, (∀ e ∈ evs, ∃ u, e = MonitorEvent.tick u) →
      monitorRun config st evs = (st, [])) ∧
    (∀ evs, (∀ e ∈ evs, ∃ u, e = MonitorEvent.tick u) →
      (monitorRun config st evs).2.length ≤ 1) := by
  refine ⟨⟨?_, ?_, ?_⟩, ?_, ?_, ?_, ?_⟩
  · unfold onTelemetryReceived
    split <;> rfl
  · unfold onTelemetryReceived
    split
    · rename_i hcond
      simp only [true_iff, iff_true]
      rintro ⟨hk, hc⟩
      rcases hcond with h | h
      · rw [hk] at h; exact Bool.noConfusion h
      · rw [hc] at h; exact Bool.noConfusion h
    · rename_i hcond
      push_neg at hcond
      constructor
      · intro hcontra
        exact List.noConfusion hcontra
      · intro hne
        exact absurd ⟨by simpa using hcond.1, by simpa using hcond.2⟩ hne
  · unfold onTelemetryReceived
    split
    · rename_i hcond
      constructor
      · intro hcontra
        exact List.noConfusion hcontra
      · rintro ⟨hk, hc⟩
        rcases hcond with h | h
        · rw [hk] at h; exact Bool.noConfusion h
        · rw [hc] at h; exact Bool.noConfusion h
    · rename_i hcond
      push_neg at hcond
      exact iff_of_true rfl ⟨by simpa using hcond.1, by simpa using hcond.2⟩
  · intro t hk hc hseen htimeout
    unfold evaluateDeviceDisconnect
    rw [if_pos ⟨hk, hc⟩, hseen]
    simp only [if_pos htimeout]
  · unfold evaluateDeviceDisconnect
    split
    · rename_i hcond
      split
      · intro hcontra; exact absurd rfl hcontra
      · rename_i t hseen
        split
        · rename_i htimeout
          exact fun _ => ⟨hcond.1, hcond.2, t, hseen, htimeout⟩
        · intro hcontra; exact absurd rfl hcontra
    · intro hcontra; exact absurd rfl hcontra
  · intro h evs hall
    exact monitorRun_ticks_disconnected config evs st h hall
  · intro evs hall
    exact monitorRun_ticks_length config evs st hall

/-- C9 witness: from the unknown initial state an ingest at 5 ms persists a
`device_connected` event; a tick 45 s after the last ingest flips a
connected device and persists one `device_disconnected`; two ingest-free
ticks persist at most one event in total. -/
theorem c9_device_monitor_witness :
    (onTelemetryReceived
      { deviceStateKnown := false, deviceConnected := false, lastDeviceSeenAt := none }
      5000000).2 = [("device_connected", 5)] ∧
    evaluateDeviceDisconnect DefaultOpsConfig
        { deviceStateKnown := true, deviceConnected := true, lastDeviceSeenAt := some 0 }
        (45 * timeSecond) =
      ({ deviceStateKnown := true, deviceConnected := false, lastDeviceSeenAt := some 0 },
        [("device_disconnected", 45000)]) ∧
    (monitorRun DefaultOpsConfig
        { deviceStateKnown := true, deviceConnected := true, lastDeviceSeenAt := some 0 }
        [.tick (45 * timeSecond), .tick (90 * timeSecond)]).2.length ≤ 1 := by
  refine ⟨?_, ?_, ?_⟩
  · have h := ((c9_device_monitor DefaultOpsConfig
      { deviceStateKnown := false, deviceConnected := false, lastDeviceSeenAt := none }
      5000000).1.2.1).mpr (by simp)
    simpa [unixMilli] using h
  · have h := (c9_device_monitor DefaultOpsConfig
      { deviceStateKnown := true, deviceConnected := true, lastDeviceSeenAt := some 0 }
      (45 * timeSecond)).2.1 0 rfl rfl rfl
      (by norm_num [DefaultOpsConfig, timeSecond])
    simpa [unixMilli, timeSecond] using h
  · exact (c9_device_monitor DefaultOpsConfig
      { deviceStateKnown := true, deviceConnected := true, lastDeviceSeenAt := some 0 }
      0).2.2.2.2 [.tick (45 * timeSecond), .tick (90 * timeSecond)]
      (by
        intro e he
        rcases List.mem_cons.mp he with rfl | he'
        · exact ⟨45 * timeSecond, rfl⟩
        · rcases List.mem_singleton.mp he' with rfl
          exact ⟨90 * timeSecond, rfl⟩)

/-! ## OpenAI alert analyzer post-processing (`normalizeAlerts`,
`fallbackStableAlert`, `Analyze`) -/

/-- `trimToLength`: byte slicing modelled on ASCII character counts. -/
def trimToLength (input : String) (maxLength : Nat) : String :=
  if input.length ≤ maxLength then input else (input.take maxLength).trim

/-- The `normalizeAlerts` loop: normalize kind and severity, derive an empty
kind from the severity, drop blank titles or messages, cap lengths, and stop
once `maxAlerts` alerts are kept. -/
def normalizeAlertsLoop (maxAlerts : Nat) : List Alert → List Alert → List Alert
  | [], output => output
  | alert :: rest, output =>
    let kind0 := alert.Kind.trim.toLower
    let kind := if kind0 = "alert" ∨ kind0 = "insight" ∨ kind0 = "tip" then kind0 else ""
    let severity0 := alert.Severity.trim.toLower
    let severity :=
      if severity0 = "critical" ∨ severity0 = "warn" ∨ severity0 = "info" then severity0
      else "info"
    let kind :=
      if kind = "" then
        if severity = "critical" ∨ severity = "warn" then "alert" else "insight"
      else kind
    let title := alert.Title.trim
    let message := alert.Message.trim
    if title = "" ∨ message = "" then normalizeAlertsLoop maxAlerts rest output
    else
      let output := output ++
        [{ Kind := kind, Severity := severity, Title := trimToLength title 60,
           Message := trimToLength message 180 }]
      if maxAlerts ≤ output.length then output
      else normalizeAlertsLoop maxAlerts rest output

def normalizeAlerts (alerts : List Alert) (maxAlerts : Nat) : List Alert :=
  normalizeAlertsLoop maxAlerts alerts []

/-- `math.Round`: round half away from zero. -/
def goMathRound (q : ℚ) : ℚ :=
  if 0 ≤ q then ((⌊q + 1/2⌋ : Int) : ℚ) else -((⌊-q + 1/2⌋ : Int) : ℚ)

/-- `round1`: round to one decimal place. -/
def round1 (value : ℚ) : ℚ := goMathRound (value * 10) / 10

/-- `%.1f` of a one-decimal value (every call site passes a `round1`
result, for which fixed-point formatting is exact). -/
def fmtF1 (q : ℚ) : String :=
  let n : Int := ⌊q * 10 + 1/2⌋
  let a := n.natAbs
  (if n < 0 then "-" else "") ++ toString (a / 10) ++ "." ++ toString (a % 10)

/-- `%.0f` of a one-decimal value, rounding ties to even as Go's fixed
formatting does. -/
def fmtF0 (q : ℚ) : String :=
  let f : Int := ⌊q⌋
  let r : ℚ := q - f
  let n : Int :=
    if r < 1/2 then f
    else if 1/2 < r then f + 1
    else if f % 2 = 0 then f else f + 1
  (if n < 0 then "-" else "") ++ toString n.natAbs

/-- `fallbackStableAlert`: an info insight titled `Air quality stable`,
built from `buildAlertSummary(readings).Latest` — the rounded metric values
of the last reading.  The Go code indexes `readings[len-1]` and is only
called on non-empty input; the empty case defaults harmlessly. -/
def fallbackStableAlert (readings : List SensorReading) : Alert :=
  let latest := readings.getLast?.getD dummyReading
  let message :=
    "Air is stable. PM2.5 " ++ fmtF1 (round1 latest.pm2) ++
    " ug/m3, PM10 " ++ fmtF1 (round1 latest.pm10) ++
    " ug/m3, humidity " ++ fmtF0 (round1 latest.humidity) ++
    "%, temperature " ++ fmtF1 (round1 latest.temperature) ++ "C."
  { Kind := "insight", Severity := "info", Title := "Air quality stable",
    Message := trimToLength message 180 }

/-- `openAIAlertAnalyzer.Analyze` with the transport stages abstracted:
`serviceAlerts` is `.error` for any request/status/parse failure and
`.ok alerts` for a successfully parsed alerts envelope.  An empty readings
slice returns early without building a request. -/
def openAIAnalyze (maxAlerts : Nat) (readings : List SensorReading)
    (serviceAlerts : Except String (List Alert)) : Except String (List Alert) :=
  if readings.isEmpty then .ok []
  else
    match serviceAlerts with
    | .error e => .error e
    | .ok alerts =>
      let normalized := normalizeAlerts alerts maxAlerts
      if normalized.isEmpty then .ok [fallbackStableAlert readings]
      else .ok normalized

/-- C10: a successful `Analyze` on a non-empty readings slice never returns
an empty list — when normalization drops every model alert the result is
exactly the fallback info insight titled `Air quality stable`, which
depends only on the latest reading; an empty readings slice yields an empty
list with a result independent of the external service. -/
theorem c10_analyze_never_empty (maxAlerts : Nat) (readings : List SensorReading)
    (serviceAlerts : Except String (List Alert)) :
    (readings = [] →
      openAIAnalyze maxAlerts readings serviceAlerts = .ok [] ∧
      ∀ other, openAIAnalyze maxAlerts readings serviceAlerts =
        openAIAnalyze maxAlerts readings other) ∧
    (∀ out, readings ≠ [] → openAIAnalyze maxAlerts readings serviceAlerts = .ok out →
      out ≠ []) ∧
    (∀ alerts, readings ≠ [] → serviceAlerts = .ok alerts →
      normalizeAlerts alerts maxAlerts = [] →
      openAIAnalyze maxAlerts readings serviceAlerts = .ok [fallbackStableAlert readings] ∧
      (fallbackStableAlert readings).Title = "Air quality stable" ∧
      (fallbackStableAlert readings).Kind = "insight" ∧
      (fallbackStableAlert readings).Severity = "info") ∧
    (∀ rs2, readings.getLast? = rs2.getLast? →
      fallbackStableAlert readings = fallbackStableAlert rs2) := by
  refine ⟨?_, ?_, ?_, ?_⟩
  · rintro rfl
    exact ⟨rfl, fun other => rfl⟩
  · intro out hne h
    unfold openAIAnalyze at h
    rw [if_neg (by simpa using hne)] at h
    rcases serviceAlerts with e | alerts
    · exact Except.noConfusion h
    · simp only at h
      split at h
      · obtain rfl := Except.ok.inj h
        simp
      · obtain rfl := Except.ok.inj h
        rename_i hnonempty
        simpa using hnonempty
  · rintro alerts hne rfl hnorm
    refine ⟨?_, rfl, rfl, rfl⟩
    unfold openAIAnalyze
    rw [if_neg (by simpa using hne)]
    simp only [hnorm, List.isEmpty_nil, if_true]
  · intro rs2 hlast
    unfold fallbackStableAlert
    rw [hlast]

/-- C10 witness: with one reading and a service reply whose only alert has a
blank title (dropped by normalization), `Analyze` returns exactly the
stable fallback insight; with no readings it returns an empty list whatever
the service would do. -/
theorem c10_analyze_never_empty_witness :
    openAIAnalyze 4 [sampleReading]
        (.ok [{ Kind := "alert", Severity := "warn", Title := "", Message := "x" }]) =
      .ok [fallbackStableAlert [sampleReading]] ∧
    (fallbackStableAlert [sampleReading]).Title = "Air quality stable" ∧
    openAIAnalyze 4 [] (.error "service down") = .ok [] := by
  refine ⟨?_, ?_, ?_⟩
  · exact ((c10_analyze_never_empty 4 [sampleReading]
      (.ok [{ Kind := "alert", Severity := "warn", Title := "", Message := "x" }])).2.2.1
      [{ Kind := "alert", Severity := "warn", Title := "", Message := "x" }]
      (by simp) rfl (by with_unfolding_all rfl)).1
  · exact ((c10_analyze_never_empty 4 [sampleReading]
      (.ok [{ Kind := "alert", Severity := "warn", Title := "", Message := "x" }])).2.2.1
      [{ Kind := "alert", Severity := "warn", Title := "", Message := "x" }]
      (by simp) rfl (by with_unfolding_all rfl)).2.1
  · exact ((c10_analyze_never_empty 4 [] (.error "service down")).1 rfl).1

end EnviroStation
